import Mathlib

/-!
Verification of the blockstore signer-coordination specification against the
repository sources.

The HTTP response preamble codec (`stackslib/src/net/http/response.rs`) is
embedded directly from the source.  The signer-side components (sortition view
tracker, proposal evaluator, response aggregator, committee channel,
reward-cycle rollover) are exercised by the integration tests under
`testnet/stacks-node/src/tests/signer/v0.rs`, but their implementations live
outside the provided sources; those components are modelled from the
specification, as marked on each such definition.
-/

set_option autoImplicit false

/-- Association-list lookup with decidable-equality keys (models lookup in a
keyed store such as `BTreeMap::get`). -/
def alistGet {α β : Type} [DecidableEq α] : List (α × β) → α → Option β
  | [], _ => none
  | (k, v) :: rest, key => if k = key then some v else alistGet rest key

/-- Association-list insert-or-replace (models `BTreeMap::insert`). -/
def alistInsert {α β : Type} [DecidableEq α] : List (α × β) → α → β → List (α × β)
  | [], key, val => [(key, val)]
  | (k, v) :: rest, key, val =>
    if k = key then (key, val) :: rest else (k, v) :: alistInsert rest key val

/-! ## HTTP response preamble codec, embedded from
`stackslib/src/net/http/response.rs` -/

/-- Modelled from the spec: `HttpVersion` is declared in `net/http/mod.rs`,
which is not among the provided sources (the wire transport is an external
collaborator, spec section 1); the two variants are the ones `response.rs`
matches on. -/
inductive HttpVersion
  | Http10
  | Http11
  deriving DecidableEq

/-- ASCII lowercasing of a string, embedding Rust's `to_lowercase` for the
ASCII keys and values the HTTP code compares.  Defined over the character
list so that concrete instances evaluate by kernel reduction. -/
def string_to_lower (s : String) : String :=
  String.mk (s.data.map Char.toLower)

/-- Modelled from the spec: `HttpContentType` is declared in
`net/http/mod.rs`, absent from the provided sources; the variants are those
`response.rs` constructs (`Bytes`, `Text`, `JSON`). -/
inductive HttpContentType
  | Bytes
  | Text
  | JSON
  deriving DecidableEq

/-- Modelled from the spec: the codec error type
(`stacks_common::codec::Error`) is external to the provided sources;
`response.rs` constructs its `ReadError`, `DeserializeError` and
`UnderflowError` variants. -/
inductive CodecError
  | ReadError
  | DeserializeError (msg : String)
  | UnderflowError (msg : String)
  deriving DecidableEq

/-- Modelled from the spec: `HTTP_PREAMBLE_MAX_ENCODED_SIZE` is defined in
`net/http/common.rs`, absent from the provided sources; `response.rs` uses it
as the preamble read bound and header-value size bound. -/
def HTTP_PREAMBLE_MAX_ENCODED_SIZE : Nat := 4096

/-- HTTP response preamble (`response.rs` lines 42-59).  The `BTreeMap` of
non-reserved headers is embedded as an association list. -/
structure HttpResponsePreamble where
  client_http_version : HttpVersion
  status_code : Nat
  reason : String
  keep_alive : Bool
  content_length : Option Nat
  content_type : HttpContentType
  headers : List (String × String)
  deriving DecidableEq

/-- Modelled from the spec: `HttpReservedHeader` lives in
`net/http/common.rs`, absent from the provided sources.  The variants are the
ones `add_header` in `response.rs` matches on. -/
inductive HttpReservedHeader
  | ContentLength (v : Nat)
  | ContentType (v : HttpContentType)
  | Host (v : String)
  deriving DecidableEq

/-- Modelled from the spec: `HttpReservedHeader::is_reserved` is in
`net/http/common.rs`, absent from the provided sources.  The reserved names
are consistent with the special cases of `get_header` in `response.rs`
(`content-type`, `content-length`) plus the `Host` variant handled by
`add_header`. -/
def HttpReservedHeader.is_reserved (header : String) : Bool :=
  header = "content-length" || header = "content-type" || header = "host"

/-- Modelled from the spec: the `HttpContentType` string parser
(`FromStr` in `net/http/mod.rs`) is absent from the provided sources; it maps
the standard MIME names to the three variants and fails otherwise. -/
def parse_content_type (s : String) : Option HttpContentType :=
  if string_to_lower s = "application/octet-stream" then some HttpContentType.Bytes
  else if string_to_lower s = "text/plain" then some HttpContentType.Text
  else if string_to_lower s = "application/json" then some HttpContentType.JSON
  else none

/-- Decimal digits to a number, failing on a non-digit or an empty list. -/
def digits_to_nat : List Char → Nat → Option Nat
  | [], acc => some acc
  | c :: rest, acc =>
    if 48 ≤ c.toNat ∧ c.toNat ≤ 57 then
      digits_to_nat rest (acc * 10 + (c.toNat - 48))
    else none

/-- `value.parse::<u32>()`: an optional leading plus sign, then at least one
decimal digit, rejecting values that overflow a `u32`. -/
def parse_u32 (s : String) : Option Nat :=
  match s.data with
  | [] => none
  | c :: rest =>
    let digits := if c = '+' then rest else s.data
    if digits.isEmpty then none
    else
      match digits_to_nat digits 0 with
      | some n => if n < 4294967296 then some n else none
      | none => none

/-- Modelled from the spec: `HttpReservedHeader::try_from_str` is in
`net/http/common.rs`, absent from the provided sources.  It parses the value
of a reserved header, failing on an unparseable value. -/
def HttpReservedHeader.try_from_str (key value : String) :
    Option HttpReservedHeader :=
  if string_to_lower key = "content-length" then
    (parse_u32 value).map HttpReservedHeader.ContentLength
  else if string_to_lower key = "content-type" then
    (parse_content_type value).map HttpReservedHeader.ContentType
  else if string_to_lower key = "host" then
    some (HttpReservedHeader.Host value)
  else none

/-- `HttpResponsePreamble::add_header` (`response.rs` lines 283-308):
lowercase the key; a reserved header updates the corresponding field (or is
dropped if unparseable / a `Host`); any other header is inserted into the
`headers` map. -/
def HttpResponsePreamble.add_header (p : HttpResponsePreamble)
    (key value : String) : HttpResponsePreamble :=
  if HttpReservedHeader.is_reserved (string_to_lower key) then
    match HttpReservedHeader.try_from_str (string_to_lower key) value with
    | some (HttpReservedHeader.ContentLength cl) =>
      { p with content_length := some cl }
    | some (HttpReservedHeader.ContentType ct) =>
      { p with content_type := ct }
    | some (HttpReservedHeader.Host _) => p
    | none => p
  else
    { p with headers := alistInsert p.headers (string_to_lower key) value }

/-- String rendering of a content type, standing in for the `Display`
implementation used by `get_header` for the `content-type` case. -/
def HttpContentType.toText : HttpContentType → String
  | HttpContentType.Bytes => "application/octet-stream"
  | HttpContentType.Text => "text/plain"
  | HttpContentType.JSON => "application/json"

/-- `HttpResponsePreamble::get_header` (`response.rs` lines 324-337):
lowercase the key; `content-type` and `content-length` are answered from the
dedicated fields, anything else from the `headers` map. -/
def HttpResponsePreamble.get_header (p : HttpResponsePreamble)
    (key : String) : Option String :=
  if string_to_lower key = "content-type" then some p.content_type.toText
  else if string_to_lower key = "content-length" then
    p.content_length.map (fun cl => toString cl)
  else alistGet p.headers (string_to_lower key)

/-- `HttpResponsePreamble::is_chunked` (`response.rs` lines 345-347). -/
def HttpResponsePreamble.is_chunked (p : HttpResponsePreamble) : Bool :=
  p.content_length.isNone

/-- One byte-at-a-time iteration of the `read_to_crlf2` loop (`response.rs`
lines 359-376): while the buffer is shorter than the bound, read one byte
(failure, including end of input, is a `ReadError`), append it, and once the
buffer is longer than 4 bytes stop if its last four bytes are CR LF CR LF.
The first argument is the remaining loop allowance
`HTTP_PREAMBLE_MAX_ENCODED_SIZE - ret.len()`; each loop iteration consumes
exactly one unit of it, so the loop runs at most
`HTTP_PREAMBLE_MAX_ENCODED_SIZE` times. -/
def read_to_crlf2_go : Nat → List Nat → List Nat → Except CodecError (List Nat)
  | 0, _, ret => Except.ok ret
  | _ + 1, [], _ => Except.error CodecError.ReadError
  | fuel + 1, b :: rest, ret =>
    let ret2 := ret ++ [b]
    if 4 < ret2.length ∧ ret2.drop (ret2.length - 4) = [13, 10, 13, 10] then
      Except.ok ret2
    else
      read_to_crlf2_go fuel rest ret2

/-- `read_to_crlf2` (`response.rs`): the reader is embedded as the list of
bytes it will yield; `read_exact` on an exhausted reader is the end-of-input
`ReadError`. -/
def read_to_crlf2 (input : List Nat) : Except CodecError (List Nat) :=
  read_to_crlf2_go HTTP_PREAMBLE_MAX_ENCODED_SIZE input []

/-- Accumulator of the header loop of `consensus_deserialize`
(`response.rs` lines 507-513): the local variables `headers`,
`seen_headers`, `content_type`, `content_length`, `chunked_encoding` and
`keep_alive`. -/
structure HeaderAcc where
  headers : List (String × String)
  seen : List String
  content_type : Option HttpContentType
  content_length : Option Nat
  chunked_encoding : Bool
  keep_alive : Bool
  deriving DecidableEq

/-- Initial accumulator values of the header loop (`response.rs` lines
507-513): empty maps, no content type or length, not chunked, keep-alive. -/
def initialHeaderAcc : HeaderAcc :=
  { headers := []
    seen := []
    content_type := none
    content_length := none
    chunked_encoding := false
    keep_alive := true }

/-- One iteration of the header loop of `consensus_deserialize`
(`response.rs` lines 515-576): check the value is ASCII and not oversized,
reject duplicate (lowercased) keys, then dispatch on the key:
`content-type`, `content-length`, `connection` and `transfer-encoding` update
dedicated fields (erring on unparseable or unsupported values); every other
header is inserted into the `headers` map. -/
def process_header (st : HeaderAcc) (h : String × String) :
    Except CodecError HeaderAcc :=
  if ¬ h.2.data.all (fun c => c.toNat ≤ 127) then
    Except.error (CodecError.DeserializeError
      ("Invalid HTTP request: header value is not ASCII-US"))
  else if HTTP_PREAMBLE_MAX_ENCODED_SIZE < h.2.length then
    Except.error (CodecError.DeserializeError
      ("Invalid HTTP request: header value is too big"))
  else if string_to_lower h.1 ∈ st.seen then
    Except.error (CodecError.DeserializeError
      ("Invalid HTTP request: duplicate header"))
  else if string_to_lower h.1 = "content-type" then
    match parse_content_type (string_to_lower h.2) with
    | some ctype =>
      Except.ok { st with seen := string_to_lower h.1 :: st.seen,
                          content_type := some ctype }
    | none => Except.error (CodecError.DeserializeError
        ("Invalid Content-Type header value"))
  else if string_to_lower h.1 = "content-length" then
    match parse_u32 h.2 with
    | some len =>
      Except.ok { st with seen := string_to_lower h.1 :: st.seen,
                          content_length := some len }
    | none => Except.error (CodecError.DeserializeError
        ("Invalid Content-Length header value"))
  else if string_to_lower h.1 = "connection" then
    if string_to_lower h.2 = "close" then
      Except.ok { st with seen := string_to_lower h.1 :: st.seen,
                          keep_alive := false }
    else if string_to_lower h.2 = "keep-alive" then
      Except.ok { st with seen := string_to_lower h.1 :: st.seen,
                          keep_alive := true }
    else
      Except.error (CodecError.DeserializeError
        ("Inavlid HTTP request: invalid Connection: header"))
  else if string_to_lower h.1 = "transfer-encoding" then
    if string_to_lower h.2 = "chunked" then
      Except.ok { st with seen := string_to_lower h.1 :: st.seen,
                          chunked_encoding := true }
    else
      Except.error (CodecError.DeserializeError
        ("Unsupported transfer-encoding"))
  else
    Except.ok { st with seen := string_to_lower h.1 :: st.seen,
                        headers := alistInsert st.headers (string_to_lower h.1) h.2 }

/-- The header loop of `consensus_deserialize` over the parsed headers, in
order, stopping at the first error. -/
def process_headers : HeaderAcc → List (String × String) →
    Except CodecError HeaderAcc
  | st, [] => Except.ok st
  | st, h :: rest =>
    match process_header st h with
    | Except.ok st1 => process_headers st1 rest
    | Except.error e => Except.error e

/-- The HTTP-version match of `consensus_deserialize` (`response.rs` lines
487-495): `0` is HTTP/1.0, `1` is HTTP/1.1, anything else is invalid. -/
def http_version_of (v : Nat) : Except CodecError HttpVersion :=
  if v = 0 then Except.ok HttpVersion.Http10
  else if v = 1 then Except.ok HttpVersion.Http11
  else Except.error (CodecError.DeserializeError ("Invalid HTTP version"))

/-- `consensus_deserialize` for `HttpResponsePreamble` (`response.rs` lines
465-602), embedded from the point where the external `httparse` library has
already split the preamble into a version, status code, reason and header
list (reading the raw bytes and `httparse` itself are external
dependencies).  The version, code and reason are each mandatory; the header
loop runs; then a `Content-Length` header is incompatible with
`Transfer-Encoding: chunked`, and one of the two must be present. -/
def consensus_deserialize (version : Option Nat) (code : Option Nat)
    (reason : Option String) (hdrs : List (String × String)) :
    Except CodecError HttpResponsePreamble :=
  match version with
  | none => Except.error (CodecError.DeserializeError ("No HTTP version"))
  | some v =>
    match http_version_of v with
    | Except.error e => Except.error e
    | Except.ok client_http_version =>
      match code with
      | none => Except.error (CodecError.DeserializeError
          ("No HTTP status code"))
      | some status_code =>
        match reason with
        | none => Except.error (CodecError.DeserializeError
            ("No HTTP status reason"))
        | some rsn =>
          match process_headers initialHeaderAcc hdrs with
          | Except.error e => Except.error e
          | Except.ok st =>
            if st.content_length.isSome ∧ st.chunked_encoding then
              Except.error (CodecError.DeserializeError
                ("Invalid HTTP response: incompatible transfer-encoding and content-length"))
            else if st.content_length.isNone ∧ ¬ st.chunked_encoding then
              Except.error (CodecError.DeserializeError
                ("Invalid HTTP response: missing Content-Type, Content-Length"))
            else
              Except.ok
                { client_http_version := client_http_version
                  status_code := status_code
                  reason := rsn
                  keep_alive := st.keep_alive
                  content_length := st.content_length
                  content_type := st.content_type.getD HttpContentType.Bytes
                  headers := st.headers }

/-- The parsed headers contain a `Content-Length` header (key compared
case-insensitively). -/
def has_content_length (hdrs : List (String × String)) : Bool :=
  hdrs.any (fun h => string_to_lower h.1 = "content-length")

/-- The parsed headers contain a `Transfer-Encoding: chunked` header (key and
value compared case-insensitively). -/
def has_chunked_te (hdrs : List (String × String)) : Bool :=
  hdrs.any (fun h =>
    string_to_lower h.1 = "transfer-encoding" ∧ string_to_lower h.2 = "chunked")

/-! ## Signer-coordination components, modelled from the specification.
The implementations live in the `stacks-signer` crate, outside the provided
sources; only their integration tests (`tests/signer/v0.rs`) are present.
Field and function names follow the test code where it names them. -/

/-- Modelled from the spec: `SortitionFacts` (spec section 3) —
`{consensus_hash, burn_height, winning_leader_public_key, is_empty}`.  The
implementation's `SortitionsView` snapshots are absent from the provided
sources. -/
structure SortitionFacts where
  consensus_hash : Nat
  burn_height : Nat
  winning_leader_public_key : Nat
  is_empty : Bool
  deriving DecidableEq

/-- Modelled from the spec: the sortition view holds the `current` and `last`
election outcomes (spec sections 3 and 4.1); field names follow the test
code's `view.cur_sortition`. -/
structure SortitionsView where
  cur_sortition : SortitionFacts
  last_sortition : SortitionFacts
  deriving DecidableEq

/-- Modelled from the spec: `ProposalEvalConfig` (spec section 3); field
names follow the test code (`first_proposal_burn_block_timing`,
`block_proposal_timeout`), durations embedded as natural numbers. -/
structure ProposalEvalConfig where
  first_proposal_burn_block_timing : Nat
  block_proposal_timeout : Nat
  deriving DecidableEq

/-- Modelled from the spec: the reject-code taxonomy (spec section 7); the
variant names follow the test code's `RejectCode`. -/
inductive RejectCode
  | SortitionViewMismatch
  | MalformedProposal
  | ValidationFailed (detail : Nat)
  | Timeout
  deriving DecidableEq

/-- Modelled from the spec: a block candidate (spec section 3) — parent
reference, claimed consensus hash, inclusion bit-vector (embedded by its
length, which is what the structural check inspects), derived
`signature_hash`, and the explicit tenure-extend flag of spec section 4.6. -/
structure BlockCandidate where
  parent_block : Nat
  consensus_hash : Nat
  pox_treatment_len : Nat
  signature_hash : Nat
  is_tenure_extend : Bool
  deriving DecidableEq

/-- Modelled from the spec: idealized signing — a signature is the pair of
the signing key and the exact message bytes (spec section 4.3 signs the
`signature_hash`, never raw block bytes). -/
def sign (sk msg : Nat) : Nat × Nat := (sk, msg)

/-- Modelled from the spec: idealized verification — a signature verifies
against a public key and message exactly when it was produced by that key
over that message. -/
def verify (pk msg : Nat) (sg : Nat × Nat) : Bool :=
  sg = (pk, msg)

/-- Modelled from the spec: a `Response` (spec section 3) —
`Accepted(signature)` or `Rejected(reason_code, signature_hash)`. -/
inductive Response
  | Accepted (signature : Nat × Nat)
  | Rejected (reason_code : RejectCode) (signature_hash : Nat)
  deriving DecidableEq

/-- Modelled from the spec: the validation oracle's verdict (spec section 6):
accept, reject with detail, or unreachable (transport error). -/
inductive Verdict
  | valid
  | invalid (detail : Nat)
  | unreachable
  deriving DecidableEq

/-- Modelled from the spec: `is_timed_out` (spec section 4.1) — true when
the elapsed time since `current` was observed exceeds
`block_proposal_timeout` and no valid proposal has been accepted for
`current`. -/
def is_timed_out (cfg : ProposalEvalConfig) (elapsed : Nat)
    (accepted_for_current : Bool) : Bool :=
  decide (cfg.block_proposal_timeout < elapsed) && !accepted_for_current

/-- Modelled from the spec: the consensus-hash check of the proposal
evaluator (spec sections 4.2 and 4.6).  A candidate matching
`view.cur_sortition` passes; a candidate matching `view.last_sortition`
passes either as a tolerated first proposal within
`first_proposal_burn_block_timing` of `current` appearing, or as an
explicitly-flagged tenure-extend proposal when the current sortition is
empty and the tenure has timed out; anything else fails. -/
def consensus_check (cfg : ProposalEvalConfig) (view : SortitionsView)
    (elapsed : Nat) (timed_out : Bool) (cand : BlockCandidate) : Bool :=
  if cand.consensus_hash = view.cur_sortition.consensus_hash then true
  else if cand.consensus_hash = view.last_sortition.consensus_hash then
    if cand.is_tenure_extend then
      view.cur_sortition.is_empty && timed_out
    else
      decide (elapsed ≤ cfg.first_proposal_burn_block_timing)
  else false

/-- Modelled from the spec: the structural check of the proposal evaluator
(spec section 4.3 of the state machine, section 4.2 bullet two): the
inclusion bit-vector length must cover the committee and the parent-block
linkage must match. -/
def structural_check (committee_size expected_parent : Nat)
    (cand : BlockCandidate) : Bool :=
  cand.pox_treatment_len = committee_size && cand.parent_block = expected_parent

/-- Modelled from the spec: one full evaluation of a proposal (spec section
4.2): the consensus check rejects with `SortitionViewMismatch` before any
oracle call; the structural check rejects with `MalformedProposal` before
any oracle call; otherwise the oracle is invoked once — success signs the
`signature_hash`, oracle-reported failure rejects with `ValidationFailed`,
and an unreachable oracle leaves the proposal undecided (`none`) for retry.
The second component counts validation-oracle calls. -/
def evaluate (cfg : ProposalEvalConfig) (view : SortitionsView)
    (elapsed : Nat) (timed_out : Bool) (committee_size expected_parent : Nat)
    (oracle : BlockCandidate → Verdict) (sk : Nat) (cand : BlockCandidate) :
    Option Response × Nat :=
  if ¬ consensus_check cfg view elapsed timed_out cand then
    (some (Response.Rejected RejectCode.SortitionViewMismatch cand.signature_hash), 0)
  else if ¬ structural_check committee_size expected_parent cand then
    (some (Response.Rejected RejectCode.MalformedProposal cand.signature_hash), 0)
  else
    match oracle cand with
    | Verdict.valid => (some (Response.Accepted (sign sk cand.signature_hash)), 1)
    | Verdict.invalid d =>
      (some (Response.Rejected (RejectCode.ValidationFailed d) cand.signature_hash), 1)
    | Verdict.unreachable => (none, 1)

/-- Modelled from the spec: `CommitteeMember` (spec section 3) —
`{public_key, weight, assigned_channel_slot}`. -/
structure CommitteeMember where
  public_key : Nat
  weight : Nat
  assigned_channel_slot : Nat
  deriving DecidableEq

/-- Total committee weight `W` (spec section 4.3). -/
def total_weight (committee : List CommitteeMember) : Nat :=
  (committee.map (fun m => m.weight)).sum

/-- Modelled from the spec: a committee member has a valid `Accepted`
response among the collected responses for this `signature_hash` — the
aggregator verifies each signature against the claimed member's public key
over the exact `signature_hash` (spec section 4.3).  Responses are pairs of
the claimed member public key and the `Response`. -/
def member_accepted (sighash : Nat) (responses : List (Nat × Response))
    (m : CommitteeMember) : Bool :=
  responses.any (fun r =>
    decide (r.1 = m.public_key) &&
      match r.2 with
      | Response.Accepted sg => verify m.public_key sighash sg
      | Response.Rejected _ _ => false)

/-- Modelled from the spec: accumulated weight of valid `Accepted`
signatures (spec section 4.3).  Summing over the committee (rather than over
raw responses) discards signatures from non-members and counts each member
at most once. -/
def accepted_weight (committee : List CommitteeMember) (sighash : Nat)
    (responses : List (Nat × Response)) : Nat :=
  total_weight (committee.filter (member_accepted sighash responses))

/-- Modelled from the spec: the response aggregator declares the block
signed once the accumulated weight of valid `Accepted` signatures reaches at
least 70 percent of total committee weight (spec section 4.3), stated over
naturals as `10 * accepted ≥ 7 * total`. -/
def declares_signed (committee : List CommitteeMember) (sighash : Nat)
    (responses : List (Nat × Response)) : Bool :=
  7 * total_weight committee ≤ 10 * accepted_weight committee sighash responses

/-- Modelled from the spec: the reward-cycle rollover scenario (spec
sections 4.5 and 8): committee membership is a pure function of the reward
cycle; with an old committee replaced by a new one at reward-cycle boundary
`B`, a block at burn-height `< B` belongs to the old committee and a block
at burn-height `≥ B` to the new one. -/
def active_committee (old_committee new_committee : List CommitteeMember)
    (boundary burn_height : Nat) : List CommitteeMember :=
  if burn_height < boundary then old_committee else new_committee

/-- Modelled from the spec: the committee pub-sub channel (spec section
4.4): each member owns one append-only, version-numbered slot.  The channel
state maps a slot id to its messages, newest first, each a
`(version, payload)` pair. -/
structure Channel where
  slots : List (Nat × List (Nat × Nat))
  deriving DecidableEq

/-- Messages currently visible on a slot, newest first. -/
def slot_messages (ch : Channel) (slot : Nat) : List (Nat × Nat) :=
  (alistGet ch.slots slot).getD []

/-- The last-seen version on a slot, if any message has been published. -/
def last_seen (ch : Channel) (slot : Nat) : Option Nat :=
  (slot_messages ch slot).head?.map (fun m => m.1)

/-- Modelled from the spec: `publish(slot_id, version, payload)` (spec
sections 4.4 and 6): the channel enforces monotonically increasing versions
per slot, rejecting (explicitly, with a negative acknowledgement, mirroring
the `accepted` field of the test's put-chunk result) a version less than or
equal to the last seen one and leaving the channel unchanged; otherwise the
message is appended to the slot. -/
def publish (ch : Channel) (slot version payload : Nat) : Bool × Channel :=
  match last_seen ch slot with
  | some v =>
    if version ≤ v then (false, ch)
    else
      (true, ⟨alistInsert ch.slots slot ((version, payload) :: slot_messages ch slot)⟩)
  | none => (true, ⟨alistInsert ch.slots slot [(version, payload)]⟩)

/-- Modelled from the spec: the proposal evaluator states (spec section
4.2): `Received → ConsensusChecked → ValidationPending → Decided`. -/
inductive EvalState
  | Received
  | ConsensusChecked
  | ValidationPending
  | Decided (response : Response)
  deriving DecidableEq

/-- Modelled from the spec: one event-loop step of the evaluator's oracle
stage under the external stall switch (spec sections 4.2 and 9): while
stalled, a `ValidationPending` evaluator stays `ValidationPending` — it
never times out internally and emits no decision; once the stall is
released, the oracle verdict decides the proposal (an unreachable oracle
leaves it pending for retry).  States other than `ValidationPending` are
unaffected by the stall switch. -/
def pending_step (stalled : Bool) (verdict : Verdict) (sk sighash : Nat)
    (s : EvalState) : EvalState :=
  match s with
  | EvalState.ValidationPending =>
    if stalled then EvalState.ValidationPending
    else
      match verdict with
      | Verdict.valid =>
        EvalState.Decided (Response.Accepted (sign sk sighash))
      | Verdict.invalid d =>
        EvalState.Decided (Response.Rejected (RejectCode.ValidationFailed d) sighash)
      | Verdict.unreachable => EvalState.ValidationPending
  | s => s

/-- Iterate the evaluator's oracle-stage step `n` times. -/
def run_pending (stalled : Bool) (verdict : Verdict) (sk sighash : Nat) :
    Nat → EvalState → EvalState
  | 0, s => s
  | n + 1, s =>
    run_pending stalled verdict sk sighash n (pending_step stalled verdict sk sighash s)

/-- Modelled from the spec: the per-member decision cache keyed by
`signature_hash` (spec sections 3 and 4.2): a `BlockCandidate` is evaluated
exactly once per member, the cached decision making re-delivery
idempotent. -/
structure EvalCache where
  decisions : List (Nat × Response)
  deriving DecidableEq

/-- Look up the stored decision for a `signature_hash`. -/
def cache_get (c : EvalCache) (sighash : Nat) : Option Response :=
  alistGet c.decisions sighash

/-- Modelled from the spec: cached evaluation (spec section 4.2): if a
decision for this `signature_hash` is already stored it is returned
unchanged; otherwise the decision procedure runs once and its result is
stored.  Returns the emitted response and the updated cache. -/
def evaluate_cached (c : EvalCache) (sighash : Nat)
    (compute : Nat → Response) : Response × EvalCache :=
  match cache_get c sighash with
  | some d => (d, c)
  | none =>
    let d := compute sighash
    (d, ⟨alistInsert c.decisions sighash d⟩)

/-- Whether an `Except` computation succeeded. -/
def except_is_ok {ε α : Type} : Except ε α → Bool
  | Except.ok _ => true
  | Except.error _ => false

/-! ## Supporting lemmas -/

theorem alistGet_alistInsert {α β : Type} [DecidableEq α]
    (l : List (α × β)) (key : α) (val : β) :
    alistGet (alistInsert l key val) key = some val := by
  induction l with
  | nil => simp [alistInsert, alistGet]
  | cons hd tl ih =>
    obtain ⟨k, v⟩ := hd
    by_cases h : k = key
    · simp [alistInsert, alistGet, h]
    · simp [alistInsert, alistGet, h, ih]

theorem read_to_crlf2_go_ok_length (fuel : Nat) :
    ∀ input ret buf, read_to_crlf2_go fuel input ret = Except.ok buf →
      buf.length ≤ ret.length + fuel := by
  induction fuel with
  | zero =>
    intro input ret buf h
    simp only [read_to_crlf2_go, Except.ok.injEq] at h
    subst h
    omega
  | succ n ih =>
    intro input ret buf h
    cases input with
    | nil => exact absurd h (by simp only [read_to_crlf2_go]; intro hc; cases hc)
    | cons b rest =>
      simp only [read_to_crlf2_go] at h
      split at h
      · simp only [Except.ok.injEq] at h
        subst h
        simp only [List.length_append, List.length_cons, List.length_nil]
        omega
      · have := ih rest (ret ++ [b]) buf h
        simp only [List.length_append, List.length_cons, List.length_nil] at this
        omega

theorem read_to_crlf2_go_error_read (fuel : Nat) :
    ∀ input ret e, read_to_crlf2_go fuel input ret = Except.error e →
      e = CodecError.ReadError := by
  induction fuel with
  | zero =>
    intro input ret e h
    exact absurd h (by simp only [read_to_crlf2_go]; intro hc; cases hc)
  | succ n ih =>
    intro input ret e h
    cases input with
    | nil =>
      simp only [read_to_crlf2_go, Except.error.injEq] at h
      exact h.symm
    | cons b rest =>
      simp only [read_to_crlf2_go] at h
      split at h
      · exact absurd h (by intro hc; cases hc)
      · exact ih rest (ret ++ [b]) e h

/-! ## Claim theorems -/

/-- C10: for every input reader, `read_to_crlf2` terminates: the loop is
bounded by `HTTP_PREAMBLE_MAX_ENCODED_SIZE` (each iteration pushes exactly
one byte onto the buffer, so the returned buffer's length equals the number
of iterations run), on success it returns a buffer of at most
`HTTP_PREAMBLE_MAX_ENCODED_SIZE` bytes, and a read failure (including end of
input) yields a `ReadError` rather than divergence. -/
theorem read_to_crlf2_terminates_bounded (input : List Nat) :
    (∃ buf, read_to_crlf2 input = Except.ok buf ∧
        buf.length ≤ HTTP_PREAMBLE_MAX_ENCODED_SIZE) ∨
    read_to_crlf2 input = Except.error CodecError.ReadError := by
  cases h : read_to_crlf2 input with
  | ok buf =>
    left
    refine ⟨buf, rfl, ?_⟩
    have := read_to_crlf2_go_ok_length HTTP_PREAMBLE_MAX_ENCODED_SIZE input [] buf h
    simpa using this
  | error e =>
    right
    rw [read_to_crlf2_go_error_read HTTP_PREAMBLE_MAX_ENCODED_SIZE input [] e h]

/-- C9: for every response preamble, non-reserved header key and value,
`add_header` followed by `get_header` returns the value, regardless of the
ASCII case of the key used in either call (the two spellings need only agree
after ASCII lowercasing, which is what both functions apply). -/
theorem add_header_get_header_roundtrip (p : HttpResponsePreamble)
    (key1 key2 value : String)
    (h_res : HttpReservedHeader.is_reserved (string_to_lower key1) = false)
    (h_case : string_to_lower key1 = string_to_lower key2) :
    (p.add_header key1 value).get_header key2 = some value := by
  have h_res1 := h_res
  simp only [HttpReservedHeader.is_reserved, Bool.or_eq_false_iff,
    decide_eq_false_iff_not] at h_res1
  obtain ⟨⟨hcl, hct⟩, _⟩ := h_res1
  unfold HttpResponsePreamble.add_header HttpResponsePreamble.get_header
  rw [h_res]
  simp only [Bool.false_eq_true, if_false, ← h_case]
  rw [if_neg hct, if_neg hcl]
  exact alistGet_alistInsert p.headers (string_to_lower key1) value

/-- Witness for C9 at a concrete preamble and a mixed-case key. -/
theorem add_header_get_header_roundtrip_witness :
    HttpReservedHeader.is_reserved (string_to_lower "X-Foo") = false ∧
    string_to_lower "X-Foo" = string_to_lower "x-FOO" ∧
    (HttpResponsePreamble.get_header
      (HttpResponsePreamble.add_header
        ⟨HttpVersion.Http11, 200, "OK", true, none, HttpContentType.JSON, []⟩
        "X-Foo" "bar")
      "x-FOO") = some "bar" :=
  ⟨by decide, by decide,
    add_header_get_header_roundtrip
      ⟨HttpVersion.Http11, 200, "OK", true, none, HttpContentType.JSON, []⟩
      "X-Foo" "x-FOO" "bar" (by decide) (by decide)⟩

/-- C7: evaluating the same `signature_hash` a second time — even with a
different decision procedure — returns the stored decision and leaves the
cache unchanged, so a committee member never emits two different responses
for one `signature_hash`. -/
theorem evaluate_cached_idempotent (c : EvalCache) (sighash : Nat)
    (f g : Nat → Response) :
    evaluate_cached (evaluate_cached c sighash f).2 sighash g
      = evaluate_cached c sighash f := by
  unfold evaluate_cached
  cases h : cache_get c sighash with
  | some d => simp [h]
  | none =>
    simp only [h]
    have : cache_get ⟨alistInsert c.decisions sighash (f sighash)⟩ sighash
        = some (f sighash) := alistGet_alistInsert c.decisions sighash (f sighash)
    simp [this]

/-- C5: publishing a message whose version is less than or equal to the
slot's last-seen version is explicitly rejected (a negative acknowledgement,
not a silent drop) and the channel state is unchanged. -/
theorem publish_replay_rejected (ch : Channel) (slot version payload v : Nat)
    (h_seen : last_seen ch slot = some v) (h_le : version ≤ v) :
    publish ch slot version payload = (false, ch) := by
  unfold publish
  rw [h_seen]
  simp [h_le]

/-- Witness for C5: publish version 3 to a fresh slot, then version 2 — the
second publish is rejected with the channel unchanged. -/
theorem publish_replay_rejected_witness :
    last_seen (publish ⟨[]⟩ 0 3 42).2 0 = some 3 ∧ 2 ≤ 3 ∧
    publish (publish ⟨[]⟩ 0 3 42).2 0 2 7 = (false, (publish ⟨[]⟩ 0 3 42).2) :=
  ⟨by decide, by decide,
    publish_replay_rejected (publish ⟨[]⟩ 0 3 42).2 0 2 7 3 (by decide) (by decide)⟩

/-- C6: while the validation oracle is stalled, a `ValidationPending`
evaluator stays `ValidationPending` for any number of event-loop steps — it
never times out internally and emits no decision; once the stall is
released, the pending proposal proceeds to a decision (accepted on a valid
verdict, rejected with `ValidationFailed` on an invalid one). -/
theorem stall_keeps_validation_pending (verdict : Verdict) (sk sighash : Nat) :
    (∀ n, run_pending true verdict sk sighash n EvalState.ValidationPending
        = EvalState.ValidationPending)
    ∧ (pending_step false Verdict.valid sk sighash EvalState.ValidationPending
        = EvalState.Decided (Response.Accepted (sign sk sighash)))
    ∧ (∀ d, pending_step false (Verdict.invalid d) sk sighash EvalState.ValidationPending
        = EvalState.Decided
            (Response.Rejected (RejectCode.ValidationFailed d) sighash)) := by
  refine ⟨?_, rfl, fun d => rfl⟩
  intro n
  induction n with
  | zero => rfl
  | succ k ih =>
    simp only [run_pending, pending_step, if_true]
    exact ih

/-- C2: a block candidate whose claimed consensus hash matches neither
`view.cur_sortition` nor a tolerated `view.last_sortition` (which is exactly
when `consensus_check` fails) is rejected with `SortitionViewMismatch` and
the validation oracle is never invoked for it (oracle-call count `0`). -/
theorem sortition_mismatch_rejects_without_oracle
    (cfg : ProposalEvalConfig) (view : SortitionsView) (elapsed : Nat)
    (timed_out : Bool) (committee_size expected_parent : Nat)
    (oracle : BlockCandidate → Verdict) (sk : Nat) (cand : BlockCandidate)
    (h : consensus_check cfg view elapsed timed_out cand = false) :
    evaluate cfg view elapsed timed_out committee_size expected_parent
        oracle sk cand
      = (some (Response.Rejected RejectCode.SortitionViewMismatch
          cand.signature_hash), 0) := by
  unfold evaluate
  simp [h]

/-- Witness for C2: a candidate whose consensus hash `3` matches neither the
current sortition (hash `10`) nor the last (hash `9`). -/
theorem sortition_mismatch_rejects_without_oracle_witness :
    consensus_check ⟨2, 5⟩ ⟨⟨10, 100, 1, false⟩, ⟨9, 99, 2, false⟩⟩ 0 false
        ⟨0, 3, 5, 77, false⟩ = false ∧
    evaluate ⟨2, 5⟩ ⟨⟨10, 100, 1, false⟩, ⟨9, 99, 2, false⟩⟩ 0 false 5 0
        (fun _ => Verdict.valid) 1 ⟨0, 3, 5, 77, false⟩
      = (some (Response.Rejected RejectCode.SortitionViewMismatch 77), 0) :=
  ⟨by decide,
    sortition_mismatch_rejects_without_oracle ⟨2, 5⟩
      ⟨⟨10, 100, 1, false⟩, ⟨9, 99, 2, false⟩⟩ 0 false 5 0
      (fun _ => Verdict.valid) 1 ⟨0, 3, 5, 77, false⟩ (by decide)⟩

/-- C4: with the current sortition marked empty and the block-proposal
timeout elapsed (so `is_timed_out` holds; the first-proposal grace window,
configured no longer than the timeout, has elapsed as well), an
explicitly-flagged tenure-extend proposal referencing the last sortition's
consensus hash is accepted (given it passes the structural check and the
oracle validates it), while a normal non-extend proposal referencing that
stale sortition is rejected with `SortitionViewMismatch`. -/
theorem empty_sortition_tenure_extend
    (cfg : ProposalEvalConfig) (view : SortitionsView) (elapsed : Nat)
    (committee_size expected_parent sk : Nat)
    (oracle : BlockCandidate → Verdict) (ext norm : BlockCandidate)
    (h_empty : view.cur_sortition.is_empty = true)
    (h_stale : view.last_sortition.consensus_hash
      ≠ view.cur_sortition.consensus_hash)
    (h_timed : is_timed_out cfg elapsed false = true)
    (h_grace : cfg.first_proposal_burn_block_timing ≤ cfg.block_proposal_timeout)
    (h_ext_hash : ext.consensus_hash = view.last_sortition.consensus_hash)
    (h_ext_flag : ext.is_tenure_extend = true)
    (h_ext_struct : structural_check committee_size expected_parent ext = true)
    (h_ext_oracle : oracle ext = Verdict.valid)
    (h_norm_hash : norm.consensus_hash = view.last_sortition.consensus_hash)
    (h_norm_flag : norm.is_tenure_extend = false) :
    evaluate cfg view elapsed (is_timed_out cfg elapsed false) committee_size
        expected_parent oracle sk ext
      = (some (Response.Accepted (sign sk ext.signature_hash)), 1)
    ∧ evaluate cfg view elapsed (is_timed_out cfg elapsed false) committee_size
        expected_parent oracle sk norm
      = (some (Response.Rejected RejectCode.SortitionViewMismatch
          norm.signature_hash), 0) := by
  have h_timeout_lt : cfg.block_proposal_timeout < elapsed := by
    simp only [is_timed_out, Bool.and_eq_true, decide_eq_true_eq] at h_timed
    exact h_timed.1
  have h_not_grace : ¬ (elapsed ≤ cfg.first_proposal_burn_block_timing) := by
    omega
  constructor
  · have hcheck : consensus_check cfg view elapsed
        (is_timed_out cfg elapsed false) ext = true := by
      unfold consensus_check
      rw [h_ext_hash]
      rw [if_neg h_stale, if_pos rfl, h_ext_flag]
      simp [h_empty, h_timed]
    unfold evaluate
    rw [hcheck, h_ext_struct]
    simp [h_ext_oracle]
  · have hcheck : consensus_check cfg view elapsed
        (is_timed_out cfg elapsed false) norm = false := by
      unfold consensus_check
      rw [h_norm_hash]
      rw [if_neg h_stale, if_pos rfl, h_norm_flag]
      simp [h_not_grace]
    unfold evaluate
    simp [hcheck]

/-- Witness for C4: empty current sortition (hash 10), stale last sortition
(hash 9), timeout 5 exceeded by elapsed time 6; the extend proposal is
accepted, the normal one rejected with `SortitionViewMismatch`. -/
theorem empty_sortition_tenure_extend_witness :
    evaluate ⟨2, 5⟩ ⟨⟨10, 100, 1, true⟩, ⟨9, 99, 2, false⟩⟩ 6
        (is_timed_out ⟨2, 5⟩ 6 false) 5 0 (fun _ => Verdict.valid) 3
        ⟨0, 9, 5, 77, true⟩
      = (some (Response.Accepted (sign 3 77)), 1)
    ∧ evaluate ⟨2, 5⟩ ⟨⟨10, 100, 1, true⟩, ⟨9, 99, 2, false⟩⟩ 6
        (is_timed_out ⟨2, 5⟩ 6 false) 5 0 (fun _ => Verdict.valid) 3
        ⟨0, 9, 5, 88, false⟩
      = (some (Response.Rejected RejectCode.SortitionViewMismatch 88), 0) :=
  empty_sortition_tenure_extend ⟨2, 5⟩ ⟨⟨10, 100, 1, true⟩, ⟨9, 99, 2, false⟩⟩
    6 5 0 3 (fun _ => Verdict.valid) ⟨0, 9, 5, 77, true⟩ ⟨0, 9, 5, 88, false⟩
    (by decide) (by decide) (by decide) (by decide) (by decide) (by decide)
    (by decide) rfl (by decide) (by decide)

theorem total_weight_const (l : List CommitteeMember) (w : Nat)
    (h : ∀ m ∈ l, m.weight = w) : total_weight l = l.length * w := by
  induction l with
  | nil => simp [total_weight]
  | cons hd tl ih =>
    have hhd : hd.weight = w := h hd (List.mem_cons_self hd tl)
    have htl : ∀ m ∈ tl, m.weight = w := fun m hm => h m (List.mem_cons_of_mem hd hm)
    simp only [total_weight, List.map_cons, List.sum_cons, List.length_cons] at *
    rw [hhd, ih htl]
    ring

/-- C1: for a committee of 5 equal-weight members, the aggregator declares
the block signed exactly when at least 4 members have contributed a valid
`Accepted` signature — whatever the remaining members did or did not respond
(the statement quantifies over every response list).  `declares_signed` is
the spec's 70-percent weight threshold. -/
theorem threshold_five_signers (committee : List CommitteeMember)
    (sighash : Nat) (responses : List (Nat × Response)) (w : Nat)
    (hw : 0 < w) (hlen : committee.length = 5)
    (hweq : ∀ m ∈ committee, m.weight = w) :
    declares_signed committee sighash responses = true ↔
      4 ≤ (committee.filter (member_accepted sighash responses)).length := by
  have htot : total_weight committee = 5 * w := by
    rw [total_weight_const committee w hweq, hlen]
  have hacc : accepted_weight committee sighash responses
      = (committee.filter (member_accepted sighash responses)).length * w := by
    unfold accepted_weight
    refine total_weight_const _ w ?_
    intro m hm
    exact hweq m (List.mem_of_mem_filter hm)
  set k := (committee.filter (member_accepted sighash responses)).length with hk
  unfold declares_signed
  rw [htot, hacc]
  constructor
  · intro h
    have h1 : 7 * (5 * w) ≤ 10 * (k * w) := by
      simpa [decide_eq_true_eq] using h
    have h2 : 35 * w ≤ (10 * k) * w := by
      calc 35 * w = 7 * (5 * w) := by ring
        _ ≤ 10 * (k * w) := h1
        _ = (10 * k) * w := by ring
    have h3 : 35 ≤ 10 * k := Nat.le_of_mul_le_mul_right (by
      calc 35 * w ≤ (10 * k) * w := h2) hw
    omega
  · intro h
    have h3 : 35 ≤ 10 * k := by omega
    have h2 : 35 * w ≤ (10 * k) * w := Nat.mul_le_mul_right w h3
    have h1 : 7 * (5 * w) ≤ 10 * (k * w) := by
      calc 7 * (5 * w) = 35 * w := by ring
        _ ≤ (10 * k) * w := h2
        _ = 10 * (k * w) := by ring
    simpa [decide_eq_true_eq] using h1

/-- Witness for C1: five unit-weight members; with 4 valid accepting
responses the block is declared signed. -/
theorem threshold_five_signers_witness :
    declares_signed
      [⟨1, 1, 0⟩, ⟨2, 1, 1⟩, ⟨3, 1, 2⟩, ⟨4, 1, 3⟩, ⟨5, 1, 4⟩] 7
      [(1, Response.Accepted (sign 1 7)), (2, Response.Accepted (sign 2 7)),
       (3, Response.Accepted (sign 3 7)), (4, Response.Accepted (sign 4 7))]
      = true :=
  (threshold_five_signers
      [⟨1, 1, 0⟩, ⟨2, 1, 1⟩, ⟨3, 1, 2⟩, ⟨4, 1, 3⟩, ⟨5, 1, 4⟩] 7
      [(1, Response.Accepted (sign 1 7)), (2, Response.Accepted (sign 2 7)),
       (3, Response.Accepted (sign 3 7)), (4, Response.Accepted (sign 4 7))]
      1 (by decide) (by decide) (by decide)).mpr (by decide)

/-- C3: with an old committee replaced by a disjoint new committee at
reward-cycle boundary `B`, a signature produced by a committee member for a
block at burn-height `< B` verifies against that (old) member's key and
against no new member's key, and symmetrically at burn-height `≥ B`; and a
valid `Accepted` signature from an old-cycle member contributes nothing to
the accepted weight computed over the new cycle's committee (stale-signature
exclusion). -/
theorem rollover_signatures (old_committee new_committee : List CommitteeMember)
    (boundary bh sighash : Nat) (m mprev : CommitteeMember)
    (responses : List (Nat × Response))
    (h_disjoint : ∀ mo ∈ old_committee, ∀ mn ∈ new_committee,
      mo.public_key ≠ mn.public_key)
    (hm : m ∈ active_committee old_committee new_committee boundary bh)
    (h_prev : mprev ∈ old_committee) :
    (bh < boundary →
      m ∈ old_committee ∧
      verify m.public_key sighash (sign m.public_key sighash) = true ∧
      ∀ mn ∈ new_committee,
        verify mn.public_key sighash (sign m.public_key sighash) = false)
    ∧ (boundary ≤ bh →
      m ∈ new_committee ∧
      verify m.public_key sighash (sign m.public_key sighash) = true ∧
      ∀ mo ∈ old_committee,
        verify mo.public_key sighash (sign m.public_key sighash) = false)
    ∧ accepted_weight new_committee sighash
        ((mprev.public_key, Response.Accepted (sign mprev.public_key sighash))
          :: responses)
      = accepted_weight new_committee sighash responses := by
  refine ⟨?_, ?_, ?_⟩
  · intro hlt
    have hm_old : m ∈ old_committee := by
      unfold active_committee at hm
      rwa [if_pos hlt] at hm
    refine ⟨hm_old, by simp [verify, sign], ?_⟩
    intro mn hmn
    have hne : m.public_key ≠ mn.public_key := h_disjoint m hm_old mn hmn
    simp [verify, sign, Prod.ext_iff, hne]
  · intro hge
    have hm_new : m ∈ new_committee := by
      unfold active_committee at hm
      rwa [if_neg (by omega)] at hm
    refine ⟨hm_new, by simp [verify, sign], ?_⟩
    intro mo hmo
    have hne : mo.public_key ≠ m.public_key := h_disjoint mo hmo m hm_new
    simp [verify, sign, Prod.ext_iff]
    intro hc
    exact absurd hc.symm hne
  · unfold accepted_weight
    congr 1
    refine List.filter_congr ?_
    intro x hx
    have hne : mprev.public_key ≠ x.public_key := h_disjoint mprev h_prev x hx
    simp [member_accepted, hne]

/-- Witness for C3: old committee of 5 members (keys 1-5), new committee of
4 members (keys 6-9), boundary 100, blocks at burn-heights 50 and 150, and a
stale accepting signature from old member 1 that adds nothing to the new
committee's accepted weight. -/
theorem rollover_signatures_witness :
    ((⟨1, 1, 0⟩ : CommitteeMember)
        ∈ [⟨1, 1, 0⟩, ⟨2, 1, 1⟩, ⟨3, 1, 2⟩, ⟨4, 1, 3⟩, ⟨5, 1, 4⟩] ∧
      verify (1 : Nat) 7 (sign 1 7) = true ∧
      ∀ mn ∈ ([⟨6, 1, 0⟩, ⟨7, 1, 1⟩, ⟨8, 1, 2⟩, ⟨9, 1, 3⟩] :
          List CommitteeMember),
        verify mn.public_key 7 (sign (1 : Nat) 7) = false)
    ∧ ((⟨6, 1, 0⟩ : CommitteeMember)
        ∈ [⟨6, 1, 0⟩, ⟨7, 1, 1⟩, ⟨8, 1, 2⟩, ⟨9, 1, 3⟩] ∧
      verify (6 : Nat) 7 (sign 6 7) = true ∧
      ∀ mo ∈ ([⟨1, 1, 0⟩, ⟨2, 1, 1⟩, ⟨3, 1, 2⟩, ⟨4, 1, 3⟩, ⟨5, 1, 4⟩] :
          List CommitteeMember),
        verify mo.public_key 7 (sign (6 : Nat) 7) = false)
    ∧ accepted_weight [⟨6, 1, 0⟩, ⟨7, 1, 1⟩, ⟨8, 1, 2⟩, ⟨9, 1, 3⟩] 7
        [(1, Response.Accepted (sign 1 7))]
      = accepted_weight [⟨6, 1, 0⟩, ⟨7, 1, 1⟩, ⟨8, 1, 2⟩, ⟨9, 1, 3⟩] 7 [] :=
  ⟨(rollover_signatures
      [⟨1, 1, 0⟩, ⟨2, 1, 1⟩, ⟨3, 1, 2⟩, ⟨4, 1, 3⟩, ⟨5, 1, 4⟩]
      [⟨6, 1, 0⟩, ⟨7, 1, 1⟩, ⟨8, 1, 2⟩, ⟨9, 1, 3⟩]
      100 50 7 ⟨1, 1, 0⟩ ⟨1, 1, 0⟩ []
      (by decide) (by decide) (by decide)).1 (by decide),
   (rollover_signatures
      [⟨1, 1, 0⟩, ⟨2, 1, 1⟩, ⟨3, 1, 2⟩, ⟨4, 1, 3⟩, ⟨5, 1, 4⟩]
      [⟨6, 1, 0⟩, ⟨7, 1, 1⟩, ⟨8, 1, 2⟩, ⟨9, 1, 3⟩]
      100 150 7 ⟨6, 1, 0⟩ ⟨1, 1, 0⟩ []
      (by decide) (by decide) (by decide)).2.1 (by decide),
   (rollover_signatures
      [⟨1, 1, 0⟩, ⟨2, 1, 1⟩, ⟨3, 1, 2⟩, ⟨4, 1, 3⟩, ⟨5, 1, 4⟩]
      [⟨6, 1, 0⟩, ⟨7, 1, 1⟩, ⟨8, 1, 2⟩, ⟨9, 1, 3⟩]
      100 150 7 ⟨6, 1, 0⟩ ⟨1, 1, 0⟩ []
      (by decide) (by decide) (by decide)).2.2⟩

theorem process_header_fields (st : HeaderAcc) (hd : String × String)
    (st1 : HeaderAcc) (h : process_header st hd = Except.ok st1) :
    st1.content_length.isSome
      = (st.content_length.isSome
          || decide (string_to_lower hd.1 = "content-length"))
    ∧ st1.chunked_encoding
      = (st.chunked_encoding
          || (decide (string_to_lower hd.1 = "transfer-encoding")
              && decide (string_to_lower hd.2 = "chunked"))) := by
  unfold process_header at h
  repeat' split at h
  all_goals cases h
  all_goals constructor
  all_goals simp_all

theorem process_headers_fields (hdrs : List (String × String)) :
    ∀ st st2, process_headers st hdrs = Except.ok st2 →
      st2.content_length.isSome
        = (st.content_length.isSome || has_content_length hdrs)
      ∧ st2.chunked_encoding = (st.chunked_encoding || has_chunked_te hdrs) := by
  induction hdrs with
  | nil =>
    intro st st2 h
    cases h
    simp [has_content_length, has_chunked_te]
  | cons hd tl ih =>
    intro st st2 h
    simp only [process_headers] at h
    cases hph : process_header st hd with
    | error e => rw [hph] at h; cases h
    | ok st1 =>
      rw [hph] at h
      obtain ⟨ih1, ih2⟩ := ih st1 st2 h
      obtain ⟨f1, f2⟩ := process_header_fields st hd st1 hph
      constructor
      · rw [ih1, f1]
        simp [has_content_length, Bool.or_assoc]
      · rw [ih2, f2]
        have hd_and : ∀ (a b : Prop) (i1 : Decidable a) (i2 : Decidable b),
            @decide (a ∧ b) (@instDecidableAnd a b i1 i2) = (decide a && decide b) := by
          intro a b i1 i2
          by_cases ha : a <;> by_cases hb : b <;> simp [ha, hb]
        simp [has_chunked_te, Bool.or_assoc, hd_and]

theorem consensus_deserialize_ok_inv (version code : Option Nat)
    (reason : Option String) (hdrs : List (String × String))
    (p : HttpResponsePreamble)
    (h : consensus_deserialize version code reason hdrs = Except.ok p) :
    ∃ st, process_headers initialHeaderAcc hdrs = Except.ok st ∧
      ¬ (st.content_length.isSome ∧ st.chunked_encoding) ∧
      ¬ (st.content_length.isNone ∧ ¬ st.chunked_encoding) ∧
      p.content_length = st.content_length := by
  cases version with
  | none =>
    simp only [consensus_deserialize] at h
    exact Except.noConfusion h
  | some v =>
    simp only [consensus_deserialize] at h
    cases hv : http_version_of v with
    | error e =>
      simp only [hv] at h
      exact Except.noConfusion h
    | ok cv =>
      simp only [hv] at h
      cases code with
      | none => exact Except.noConfusion h
      | some sc =>
        cases reason with
        | none => exact Except.noConfusion h
        | some rsn =>
          cases hps : process_headers initialHeaderAcc hdrs with
          | error e =>
            simp only [hps] at h
            exact Except.noConfusion h
          | ok st =>
            simp only [hps] at h
            by_cases hc1 : st.content_length.isSome = true ∧ st.chunked_encoding = true
            · rw [if_pos hc1] at h; cases h
            · rw [if_neg hc1] at h
              by_cases hc2 : st.content_length.isNone = true ∧ ¬ st.chunked_encoding = true
              · rw [if_pos hc2] at h; cases h
              · rw [if_neg hc2] at h
                cases h
                exact ⟨st, rfl, hc1, hc2, rfl⟩

/-- C8: `consensus_deserialize` errs whenever the parsed headers carry both
a `Content-Length` and a `Transfer-Encoding: chunked` header, and whenever
they carry neither; consequently a successfully parsed preamble records a
`Content-Length` exactly when one was among the headers, is chunked exactly
when `Transfer-Encoding: chunked` was, and `is_chunked` holds exactly when
`content_length` is absent. -/
theorem response_preamble_content_length_xor (version code : Option Nat)
    (reason : Option String) (hdrs : List (String × String)) :
    (has_content_length hdrs = true ∧ has_chunked_te hdrs = true →
      except_is_ok (consensus_deserialize version code reason hdrs) = false)
    ∧ (has_content_length hdrs = false ∧ has_chunked_te hdrs = false →
      except_is_ok (consensus_deserialize version code reason hdrs) = false)
    ∧ (∀ p, consensus_deserialize version code reason hdrs = Except.ok p →
        p.content_length.isSome = has_content_length hdrs
        ∧ p.is_chunked = has_chunked_te hdrs
        ∧ (p.is_chunked = true ↔ p.content_length = none)) := by
  refine ⟨?_, ?_, ?_⟩
  · rintro ⟨hcl, hte⟩
    cases hres : consensus_deserialize version code reason hdrs with
    | error e => rfl
    | ok p =>
      exfalso
      obtain ⟨st, hps, hc1, _, _⟩ :=
        consensus_deserialize_ok_inv version code reason hdrs p hres
      obtain ⟨f1, f2⟩ := process_headers_fields hdrs initialHeaderAcc st hps
      exact hc1 ⟨by rw [f1]; simp [initialHeaderAcc, hcl],
        by rw [f2]; simp [initialHeaderAcc, hte]⟩
  · rintro ⟨hcl, hte⟩
    cases hres : consensus_deserialize version code reason hdrs with
    | error e => rfl
    | ok p =>
      exfalso
      obtain ⟨st, hps, _, hc2, _⟩ :=
        consensus_deserialize_ok_inv version code reason hdrs p hres
      obtain ⟨f1, f2⟩ := process_headers_fields hdrs initialHeaderAcc st hps
      have hsome : st.content_length.isSome = false := by
        rw [f1]; simp [initialHeaderAcc, hcl]
      have hchunk : st.chunked_encoding = false := by
        rw [f2]; simp [initialHeaderAcc, hte]
      apply hc2
      constructor
      · cases hopt : st.content_length with
        | none => rfl
        | some x => rw [hopt] at hsome; cases hsome
      · simp [hchunk]
  · intro p hres
    obtain ⟨st, hps, hc1, hc2, hlen⟩ :=
      consensus_deserialize_ok_inv version code reason hdrs p hres
    obtain ⟨f1, f2⟩ := process_headers_fields hdrs initialHeaderAcc st hps
    have e1 : st.content_length.isSome = has_content_length hdrs := by
      rw [f1]; simp [initialHeaderAcc]
    have e2 : st.chunked_encoding = has_chunked_te hdrs := by
      rw [f2]; simp [initialHeaderAcc]
    have e3 : st.content_length.isNone = st.chunked_encoding := by
      cases hch : st.chunked_encoding with
      | true =>
        cases hopt : st.content_length with
        | none => rfl
        | some x => exact absurd ⟨by rw [hopt]; rfl, hch⟩ hc1
      | false =>
        cases hopt : st.content_length with
        | some x => rfl
        | none => exact absurd ⟨by rw [hopt]; rfl, by simp [hch]⟩ hc2
    refine ⟨by rw [hlen, e1], ?_, ?_⟩
    · show p.content_length.isNone = has_chunked_te hdrs
      rw [hlen, e3, e2]
    · show p.content_length.isNone = true ↔ p.content_length = none
      cases p.content_length <;> simp

/-- Witness for C8: headers with both `Content-Length` and
`Transfer-Encoding: chunked` fail to parse; headers with neither fail to
parse; headers with exactly a `Content-Length` parse into a preamble whose
`content_length` is present and which is not chunked. -/
theorem response_preamble_content_length_xor_witness :
    except_is_ok (consensus_deserialize (some 1) (some 200) (some ("OK"))
      [("Content-Length", "5"), ("Transfer-Encoding", "chunked")]) = false
    ∧ except_is_ok (consensus_deserialize (some 1) (some 200) (some ("OK"))
      [("X-Foo", "bar")]) = false
    ∧ ((⟨HttpVersion.Http11, 200, "OK", true, some 5, HttpContentType.Bytes,
          []⟩ : HttpResponsePreamble).content_length.isSome
        = has_content_length [("Content-Length", "5")]
      ∧ (⟨HttpVersion.Http11, 200, "OK", true, some 5, HttpContentType.Bytes,
          []⟩ : HttpResponsePreamble).is_chunked
        = has_chunked_te [("Content-Length", "5")]
      ∧ ((⟨HttpVersion.Http11, 200, "OK", true, some 5, HttpContentType.Bytes,
          []⟩ : HttpResponsePreamble).is_chunked = true
        ↔ (⟨HttpVersion.Http11, 200, "OK", true, some 5, HttpContentType.Bytes,
          []⟩ : HttpResponsePreamble).content_length = none)) :=
  ⟨(response_preamble_content_length_xor (some 1) (some 200) (some ("OK"))
      [("Content-Length", "5"), ("Transfer-Encoding", "chunked")]).1
      ⟨by decide, by decide⟩,
   (response_preamble_content_length_xor (some 1) (some 200) (some ("OK"))
      [("X-Foo", "bar")]).2.1 ⟨by decide, by decide⟩,
   (response_preamble_content_length_xor (some 1) (some 200) (some ("OK"))
      [("Content-Length", "5")]).2.2
      ⟨HttpVersion.Http11, 200, "OK", true, some 5, HttpContentType.Bytes, []⟩
      (by rfl)⟩
